import Mathlib

/-!
Shallow embedding of the state-bearing core of `src/index.tsx` (single-page
portfolio): the `throttle` utility, the `useIntersectionObserver` hook, the
mobile-navigation display state machine in `Header`, the typewriter effect in
`HeroSection`, the active-section observer in `LandingPage`, and the theme
controller in `App`.  Times are modelled in milliseconds as `Nat`; callback
arguments are tagged by `Nat` identifiers.
-/

namespace Portfolio

/-! ## Throttle (src/index.tsx, `throttle`, lines 6-29)

The closure keeps `inThrottle`, `lastRan` and a single timer handle
`lastFunc`.  The handle either holds the cooldown-reset timer scheduled by
the leading-edge branch (its callback sets `inThrottle := false`) or the
trailing timer scheduled by the cooldown branch (its callback re-checks the
wall clock and executes with the coalesced arguments).  The cooldown branch
first clears the stored handle, so at most one timer is ever pending.  A
trailing timer's delay `limit - (now - lastRan)` is clamped at 0 by the
platform, so it fires at `max now (lastRan + limit)`. -/

/-- The single pending timer held in the throttle closure's `lastFunc`. -/
inductive ThTimer where
  | reset (fireAt : Nat)
  | trailing (fireAt : Nat) (args : Nat)
  deriving DecidableEq, Repr

/-- Closure state of `throttle`, plus the log of executions `(time, args)`. -/
structure ThState where
  inThrottle : Bool
  lastRan : Nat
  timer : Option ThTimer
  execs : List (Nat × Nat)
  deriving DecidableEq, Repr

/-- Before the first call: `inThrottle` is falsy, no timer pending. -/
def thInit : ThState := ⟨false, 0, none, []⟩

/-- When does the pending timer fire, if one is pending? -/
def thTimerAt : Option ThTimer → Option Nat
  | none => none
  | some (.reset t) => some t
  | some (.trailing t _) => some t

/-- Run the pending timer's callback.  The reset timer clears `inThrottle`;
the trailing timer executes with its stored arguments provided at least
`limit` elapsed since `lastRan` (the source's wall-clock re-check). -/
def thFire (limit : Nat) (s : ThState) : ThState :=
  match s.timer with
  | none => s
  | some (.reset _) => { s with inThrottle := false, timer := none }
  | some (.trailing fireAt args) =>
      if s.lastRan + limit ≤ fireAt then
        { s with execs := s.execs ++ [(fireAt, args)], lastRan := fireAt, timer := none }
      else
        { s with timer := none }

/-- Deliver the pending timer if its fire time has been reached by `now`. -/
def thMaybeFire (limit : Nat) (s : ThState) (now : Nat) : ThState :=
  match thTimerAt s.timer with
  | some fireAt => if fireAt ≤ now then thFire limit s else s
  | none => s

/-- One call of the throttled wrapper at time `t` with arguments `args`:
first any timer due by `t` fires, then the wrapper body runs.  Outside the
cooldown it executes immediately and schedules the reset timer; inside the
cooldown it clears the stored handle and schedules the trailing timer at
`max t (lastRan + limit)` with the latest arguments. -/
def thCall (limit : Nat) (s : ThState) (t args : Nat) : ThState :=
  let s := thMaybeFire limit s t
  if s.inThrottle = false then
    { s with execs := s.execs ++ [(t, args)], lastRan := t, inThrottle := true,
             timer := some (.reset (t + limit)) }
  else
    { s with timer := some (.trailing (max t (s.lastRan + limit)) args) }

/-- Feed a time-ordered list of calls `(time, args)` through the throttled
wrapper, then let any remaining timer fire. -/
def throttleRun (limit : Nat) (calls : List (Nat × Nat)) : ThState :=
  thFire limit (calls.foldl (fun s c => thCall limit s c.1 c.2) thInit)

/-! ## Mobile navigation state machine (src/index.tsx, `Header`, lines 389-538)

`Header` keeps two pieces of state: `isMobileMenuReallyOpen : Bool` and
`mobileMenuDisplayState ∈ {hidden, opening, open, closing}`.  The source's
`'open'` literal is a Lean keyword, so the constructor is named `opened`. -/

/-- `MobileMenuDisplayState` from the source (`'open'` rendered `opened`). -/
inductive Disp where
  | hidden
  | opening
  | opened
  | closing
  deriving DecidableEq, Repr, Fintype

/-- The pair of `Header` state variables. -/
structure MState where
  isOpen : Bool
  disp : Disp
  deriving DecidableEq, Repr, Fintype

/-- Initial render: `useState(false)` and `useState('hidden')`. -/
def minit : MState := ⟨false, .hidden⟩

/-- `openMobileMenu`: records the ripple origin (not modelled), then sets
the display state to `opening` and the flag to `true`. -/
def openMobileMenu (_s : MState) : MState := ⟨true, .opening⟩

/-- `closeMobileMenu`: sets the display state to `closing`, flag `false`. -/
def closeMobileMenu (_s : MState) : MState := ⟨false, .closing⟩

/-- `handleToggleMobileMenu`: close only from `open`/`opening` while the
flag is set, open only from `hidden`/`closing` while it is clear. -/
def handleToggle (s : MState) : MState :=
  if s.isOpen then
    if s.disp = .opened ∨ s.disp = .opening then closeMobileMenu s else s
  else
    if s.disp = .hidden ∨ s.disp = .closing then openMobileMenu s else s

/-- `navLinkHandler`: always navigates (not modelled), and closes the menu
iff the flag is set. -/
def navLinkSelect (s : MState) : MState :=
  if s.isOpen then closeMobileMenu s else s

/-- The display-state effect's timer callback: the timer only exists in
`opening` (600 ms, advancing to `open`) and `closing` (500 ms, advancing to
`hidden`); in other states there is no timer, so expiry is a no-op. -/
def timerExpire (s : MState) : MState :=
  match s.disp with
  | .opening => { s with disp := .opened }
  | .closing => { s with disp := .hidden }
  | _ => s

/-- Events the `Header` machine reacts to. -/
inductive MEvent where
  | toggle
  | navLink
  | timerFire
  deriving DecidableEq, Repr, Fintype

/-- One step of the `Header` machine. -/
def mstep (s : MState) : MEvent → MState
  | .toggle => handleToggle s
  | .navLink => navLinkSelect s
  | .timerFire => timerExpire s

/-- States reachable from the initial render by any event sequence. -/
inductive MReachable : MState → Prop where
  | init : MReachable minit
  | step (s : MState) (e : MEvent) : MReachable s → MReachable (mstep s e)

/-- The synchronization invariant between the two state variables. -/
def MInv (s : MState) : Prop :=
  s.isOpen = true ↔ (s.disp = .opening ∨ s.disp = .opened)

/-- Display-state transitions the amended C2 allows: stutter, the four cycle
edges, and the two toggle shortcuts `opening→closing`, `closing→opening`. -/
def dispAllowed (d d' : Disp) : Prop :=
  d = d' ∨ (d, d') ∈ ([(.hidden, .opening), (.opening, .opened),
    (.opened, .closing), (.closing, .hidden),
    (.opening, .closing), (.closing, .opening)] : List (Disp × Disp))

/-- Elapsing `d` milliseconds with no intervening events: the 600 ms timer
of `opening` and the 500 ms timer of `closing` fire once due; the target
states carry no timer of their own. -/
def advance (s : MState) (d : Nat) : MState :=
  match s.disp with
  | .opening => if 600 ≤ d then { s with disp := .opened } else s
  | .closing => if 500 ≤ d then { s with disp := .hidden } else s
  | _ => s

/-! ## Intersection observer hook (src/index.tsx, `useIntersectionObserver`,
lines 66-102)

Per bound element the hook holds `isIntersecting : Bool` plus the live
observer; `unobserve` stops delivery of further entries for the element.  An
entry is modelled by its `isIntersecting` flag. -/

/-- Hook state: whether the element is still observed, and the exposed
visibility signal. -/
structure ObsState where
  observing : Bool
  isIntersecting : Bool
  deriving DecidableEq, Repr, Fintype

/-- After binding an element: observed, signal initially `false`. -/
def obsInit : ObsState := ⟨true, false⟩

/-- The observer callback on one entry (`e` is `entry.isIntersecting`).
An intersecting entry sets the signal and, under `triggerOnce`, unobserves
the element; a non-intersecting entry clears the signal only when
`triggerOnce` is off.  After unobserve no entries are delivered. -/
def obsStep (triggerOnce : Bool) (s : ObsState) (e : Bool) : ObsState :=
  if s.observing then
    if e then { observing := !triggerOnce, isIntersecting := true }
    else if triggerOnce then s
    else { s with isIntersecting := false }
  else s

/-- Deliver a sequence of entries to a freshly bound element. -/
def obsRun (triggerOnce : Bool) (events : List Bool) : ObsState :=
  events.foldl (obsStep triggerOnce) obsInit

/-! ## Active-section tracker (src/index.tsx, `LandingPage` observer effect,
lines 636-662)

The callback iterates over the delivered entries and, for each intersecting
one, stores that entry's target id in `activeSectionId`
(`useState<string | null>('hero')`). -/

/-- One delivered entry: its intersection flag and its target's id. -/
structure ObsEntry where
  isIntersecting : Bool
  targetId : String
  deriving DecidableEq, Repr

/-- `entries.forEach` body for one entry. -/
def activeStep (a : Option String) (e : ObsEntry) : Option String :=
  if e.isIntersecting then some e.targetId else a

/-- Process a batch of delivered entries in order. -/
def activeRun (a : Option String) (es : List ObsEntry) : Option String :=
  es.foldl activeStep a

/-- `useState<string | null>('hero')`. -/
def activeInit : Option String := some "hero"

/-! ## Theme controller (src/index.tsx, `App`, lines 718-742) -/

/-- The `'light' | 'dark'` union. -/
inductive Theme where
  | light
  | dark
  deriving DecidableEq, Repr, Fintype

/-- The startup effect: the persisted value wins; otherwise the system
`prefers-color-scheme: dark` signal decides, defaulting to light. -/
def initialTheme : Option Theme → Bool → Theme
  | some t, _ => t
  | none, prefersDark => if prefersDark then .dark else .light

/-- `toggleTheme`: flips between the two values unconditionally. -/
def toggleTheme : Theme → Theme
  | .light => .dark
  | .dark => .light

/-- App-level state: the current theme and the persisted store under the
key `portfolio-theme` (after the persistence effect has run). -/
structure AppThemeState where
  theme : Theme
  stored : Option Theme
  deriving DecidableEq, Repr

/-- State after startup: the initial theme is chosen and the persistence
effect writes it to the store. -/
def appStartup (stored : Option Theme) (prefersDark : Bool) : AppThemeState :=
  ⟨initialTheme stored prefersDark, some (initialTheme stored prefersDark)⟩

/-- One user toggle: the theme flips and the persistence effect writes the
new value to the store. -/
def appToggle (s : AppThemeState) : AppThemeState :=
  ⟨toggleTheme s.theme, some (toggleTheme s.theme)⟩

/-! ## Typewriter (src/index.tsx, `HeroSection` typing effect, lines 545-612)

`HeroSection` keeps `typedNameChars` (the emitted characters), `currentIndex`
and `isTypingForward`.  Each effect run schedules exactly one timeout whose
callback performs one atomic mutation; the four branches below mirror the
source's four branches, and `twDelay` is the timeout duration each branch
uses (`typingSpeed`, `backspaceSpeed`, `pauseAtEndDuration`). -/

/-- The `HeroSection` typing state (character keys are not modelled). -/
structure TwState where
  typed : List Char
  idx : Nat
  fwd : Bool
  deriving DecidableEq, Repr

/-- Initial render: empty emitted text, index 0, typing forward. -/
def twInit : TwState := ⟨[], 0, true⟩

/-- One timeout callback: forward below the full length appends
`fullName[currentIndex]` and increments the index; forward at the full
length flips to deleting; backward above zero drops the last character and
decrements; backward at zero flips to typing. -/
def twStep (name : List Char) (s : TwState) : TwState :=
  if s.fwd then
    if s.idx < name.length then ⟨s.typed ++ [name.getD s.idx ' '], s.idx + 1, true⟩
    else ⟨s.typed, s.idx, false⟩
  else
    if 0 < s.idx then ⟨s.typed.dropLast, s.idx - 1, false⟩
    else ⟨s.typed, s.idx, true⟩

/-- The timeout duration the effect schedules in state `s`. -/
def twDelay (tf tb p : Nat) (name : List Char) (s : TwState) : Nat :=
  if s.fwd then
    if s.idx < name.length then tf else p
  else
    if 0 < s.idx then tb else p

/-- The state after `k` timeout callbacks from the initial render. -/
def twIter (name : List Char) : Nat → TwState
  | 0 => twInit
  | k + 1 => twStep name (twIter name k)

instance (s : MState) : Decidable (MInv s) := by
  unfold MInv; infer_instance

instance (d d' : Disp) : Decidable (dispAllowed d d') := by
  unfold dispAllowed; infer_instance

/-- Every event preserves the flag/display synchronization. -/
theorem minv_step : ∀ (s : MState) (e : MEvent), MInv s → MInv (mstep s e) := by
  decide

/-- Every reachable state satisfies the synchronization invariant. -/
theorem mreachable_minv : ∀ s, MReachable s → MInv s := by
  intro s h
  induction h with
  | init => decide
  | step s e _ ih => exact minv_step s e ih

/-- On invariant states, every step follows an allowed display transition. -/
theorem mstep_dispAllowed :
    ∀ (s : MState) (e : MEvent), MInv s → dispAllowed s.disp (mstep s e).disp := by
  decide

/-- On invariant states, toggling acts as the total transition map
`hidden→opening`, `opening→closing`, `opened→closing`, `closing→opening`. -/
theorem mtoggle_map : ∀ s : MState, MInv s →
    (s.disp = .hidden → mstep s .toggle = ⟨true, .opening⟩) ∧
    (s.disp = .opening → mstep s .toggle = ⟨false, .closing⟩) ∧
    (s.disp = .opened → mstep s .toggle = ⟨false, .closing⟩) ∧
    (s.disp = .closing → mstep s .toggle = ⟨true, .opening⟩) := by
  decide

/-! ## Claim theorems: throttle -/

/-- C1 counterexample: with `limit = 50` and calls at 0, 10, 20, 60 ms, the
wrapper executes three times (at 0, at 50 with the t=20 arguments, at 100
with the t=60 arguments), not the two executions the claim states. -/
theorem C1_throttle_counterexample :
    (throttleRun 50 [(0, 0), (10, 1), (20, 2), (60, 3)]).execs.length = 3 ∧
    ¬ (throttleRun 50 [(0, 0), (10, 1), (20, 2), (60, 3)]).execs.length = 2 := by
  decide

/-- C1 amended: with `limit = 50` and calls at 0, 10, 20, 60 ms, exactly
three executions occur — at t=0 with the t=0 arguments, at t=50 (the
earliest time ≥ 50 after the previous execution) with the latest coalesced
arguments (the t=20 call's), and at t=100 with the t=60 call's arguments —
and any two distinct executions are at least 50 ms apart, so no 50 ms
window holds more than one execution. -/
theorem C1_throttle_amended :
    (throttleRun 50 [(0, 0), (10, 1), (20, 2), (60, 3)]).execs
      = [(0, 0), (50, 2), (100, 3)] ∧
    List.Pairwise (fun p q : Nat × Nat => p.1 + 50 ≤ q.1)
      (throttleRun 50 [(0, 0), (10, 1), (20, 2), (60, 3)]).execs := by
  refine ⟨by decide, ?_⟩
  have h : (throttleRun 50 [(0, 0), (10, 1), (20, 2), (60, 3)]).execs
      = [(0, 0), (50, 2), (100, 3)] := by decide
  rw [h]
  norm_num [List.pairwise_cons]

/-! ## Claim theorems: mobile navigation state machine -/

/-- C2 counterexample: one toggle from the initial state reaches `opening`,
and a second toggle moves the display state directly from `opening` to
`closing` — a step the claim rules out. -/
theorem C2_nav_cycle_counterexample :
    (mstep minit .toggle).disp = .opening ∧
    (mstep (mstep minit .toggle) .toggle).disp = .closing := by
  decide

/-- C2 amended: on every reachable state, every event moves the display
state along an allowed edge — a stutter, one of the four cycle edges
`hidden→opening→open→closing→hidden`, or one of the two toggle shortcuts
`opening→closing` and `closing→opening`; no other state is ever skipped
(e.g. never `hidden→open` or `open→hidden` directly). -/
theorem C2_nav_cycle_amended (s : MState) (e : MEvent) (h : MReachable s) :
    dispAllowed s.disp (mstep s e).disp :=
  mstep_dispAllowed s e (mreachable_minv s h)

/-- C2 amended, witness: the allowed-edge property at the initial state
under a toggle. -/
theorem C2_nav_cycle_witness :
    dispAllowed minit.disp (mstep minit .toggle).disp :=
  C2_nav_cycle_amended minit .toggle MReachable.init

/-- C3 counterexample: the reachable state after two toggles has display
state `closing`, yet a further toggle is not a no-op — it re-opens the
drawer (`closing→opening`). -/
theorem C3_toggle_guard_counterexample :
    (mstep (mstep minit .toggle) .toggle).disp = .closing ∧
    mstep (mstep (mstep minit .toggle) .toggle) .toggle
      ≠ mstep (mstep minit .toggle) .toggle ∧
    (mstep (mstep (mstep minit .toggle) .toggle) .toggle).disp = .opening := by
  decide

/-- C3 amended: on every reachable state the toggle transition map is
total — `hidden→opening`, `opening→closing`, `open→closing`, and
`closing→opening`; in particular a toggle arriving while the state is
`closing` re-opens the drawer rather than being ignored, and no reachable
state ignores a toggle. -/
theorem C3_toggle_guard_amended (s : MState) (h : MReachable s) :
    (s.disp = .hidden → mstep s .toggle = ⟨true, .opening⟩) ∧
    (s.disp = .opening → mstep s .toggle = ⟨false, .closing⟩) ∧
    (s.disp = .opened → mstep s .toggle = ⟨false, .closing⟩) ∧
    (s.disp = .closing → mstep s .toggle = ⟨true, .opening⟩) :=
  mtoggle_map s (mreachable_minv s h)

/-- C3 amended, witness: at the initial (hidden) state a toggle yields
`opening` with the flag set. -/
theorem C3_toggle_guard_witness : mstep minit .toggle = ⟨true, .opening⟩ :=
  (C3_toggle_guard_amended minit MReachable.init).1 rfl

/-- C9: from `hidden` a single toggle yields `opening` immediately; with no
intervening events the state is unchanged for every elapsed duration below
600 ms and advances to `open` at exactly 600 ms; likewise `closing` is
unchanged below 500 ms and advances to `hidden` at exactly 500 ms. -/
theorem C9_nav_auto_advance :
    mstep minit .toggle = ⟨true, .opening⟩ ∧
    (∀ d, d < 600 → advance ⟨true, .opening⟩ d = ⟨true, .opening⟩) ∧
    advance ⟨true, .opening⟩ 600 = ⟨true, .opened⟩ ∧
    (∀ d, d < 500 → advance ⟨false, .closing⟩ d = ⟨false, .closing⟩) ∧
    advance ⟨false, .closing⟩ 500 = ⟨false, .hidden⟩ := by
  refine ⟨rfl, ?_, rfl, ?_, rfl⟩ <;>
    · intro d h
      simp only [advance, if_neg (Nat.not_le_of_lt h)]

/-- C9 witness: 599 ms of elapsed time leaves `opening` unchanged. -/
theorem C9_nav_auto_advance_witness :
    advance ⟨true, .opening⟩ 599 = ⟨true, .opening⟩ :=
  C9_nav_auto_advance.2.1 599 (by decide)

/-- C10: every reachable state satisfies `isMobileMenuReallyOpen = true`
iff the display state is `opening` or `open`, and every event (toggle, link
selection, timer expiry) preserves this synchronization. -/
theorem C10_flag_display_sync :
    (∀ s, MReachable s →
      (s.isOpen = true ↔ (s.disp = .opening ∨ s.disp = .opened))) ∧
    (∀ (s : MState) (e : MEvent),
      (s.isOpen = true ↔ (s.disp = .opening ∨ s.disp = .opened)) →
      ((mstep s e).isOpen = true ↔
        ((mstep s e).disp = .opening ∨ (mstep s e).disp = .opened))) :=
  ⟨fun s h => mreachable_minv s h, fun s e h => minv_step s e h⟩

/-- C10 witness: the synchronization equivalence at the initial state. -/
theorem C10_flag_display_sync_witness :
    minit.isOpen = true ↔ (minit.disp = .opening ∨ minit.disp = .opened) :=
  C10_flag_display_sync.1 minit MReachable.init

/-! ## Claim theorems: intersection observer hook -/

/-- With `triggerOnce` one entry never clears a set signal. -/
theorem obsStep_once_latch :
    ∀ (s : ObsState) (e : Bool), s.isIntersecting = true →
      (obsStep true s e).isIntersecting = true := by
  decide

/-- With `triggerOnce` a whole entry sequence never clears a set signal. -/
theorem obsFold_once_latch (l : List Bool) :
    ∀ s : ObsState, s.isIntersecting = true →
      (l.foldl (obsStep true) s).isIntersecting = true := by
  induction l with
  | nil => intro s h; exact h
  | cons e l ih =>
      intro s h
      exact ih (obsStep true s e) (obsStep_once_latch s e h)

/-- Without `triggerOnce` the element is never unobserved. -/
theorem obsStep_keeps_observing :
    ∀ (s : ObsState) (e : Bool), s.observing = true →
      (obsStep false s e).observing = true := by
  decide

/-- Without `triggerOnce` the element stays observed over any sequence. -/
theorem obsFold_keeps_observing (l : List Bool) :
    ∀ s : ObsState, s.observing = true →
      (l.foldl (obsStep false) s).observing = true := by
  induction l with
  | nil => intro s h; exact h
  | cons e l ih =>
      intro s h
      exact ih (obsStep false s e) (obsStep_keeps_observing s e h)

/-- C4: with `triggerOnce = true`, once the visibility signal is true after
some entry sequence, it is still true after any further entries. -/
theorem C4_triggerOnce_latch (events more : List Bool)
    (h : (obsRun true events).isIntersecting = true) :
    (obsRun true (events ++ more)).isIntersecting = true := by
  unfold obsRun at h ⊢
  rw [List.foldl_append]
  exact obsFold_once_latch more _ h

/-- C4 witness: after an intersecting entry followed by a non-intersecting
one, the signal is still true. -/
theorem C4_triggerOnce_latch_witness :
    (obsRun true ([true] ++ [false])).isIntersecting = true :=
  C4_triggerOnce_latch [true] [false] (by decide)

/-- C5: with `triggerOnce = false` the signal always equals the last
delivered intersection status — an intersecting entry sets it, a
non-intersecting entry clears it, fully reversibly. -/
theorem C5_reversible (events : List Bool) (e : Bool) :
    (obsRun false (events ++ [e])).isIntersecting = e := by
  unfold obsRun
  rw [List.foldl_append]
  have h : ((events.foldl (obsStep false) obsInit)).observing = true :=
    obsFold_keeps_observing events obsInit rfl
  cases e <;> simp [obsStep, h]

/-! ## Claim theorems: active-section tracker -/

/-- A batch with no intersecting entry leaves the active id unchanged. -/
theorem activeRun_unchanged (es : List ObsEntry) :
    ∀ a : Option String, (∀ x ∈ es, x.isIntersecting = false) →
      activeRun a es = a := by
  induction es with
  | nil => intro a _; rfl
  | cons x es ih =>
      intro a h
      have hx : x.isIntersecting = false := h x (List.mem_cons_self x es)
      have : activeRun a (x :: es) = activeRun (activeStep a x) es := rfl
      rw [this, show activeStep a x = a by simp [activeStep, hx]]
      exact ih a fun y hy => h y (List.mem_cons_of_mem x hy)

/-- Processing a batch never clears a set active id. -/
theorem activeRun_isSome (es : List ObsEntry) :
    ∀ a : Option String, a.isSome = true → (activeRun a es).isSome = true := by
  induction es with
  | nil => intro a h; exact h
  | cons x es ih =>
      intro a h
      have : activeRun a (x :: es) = activeRun (activeStep a x) es := rfl
      rw [this]
      refine ih (activeStep a x) ?_
      cases hx : x.isIntersecting <;> simp [activeStep, hx, h]

/-- C8: an intersecting entry overwrites the active id with its target's id
(last writer wins); a batch with no intersecting entry leaves it unchanged;
and starting from the default `some "hero"` the id is never cleared. -/
theorem C8_active_section (a : Option String) (es : List ObsEntry) (e : ObsEntry) :
    (activeRun a (es ++ [e])
      = if e.isIntersecting then some e.targetId else activeRun a es) ∧
    ((∀ x ∈ es, x.isIntersecting = false) → activeRun a es = a) ∧
    (a.isSome = true → (activeRun a es).isSome = true) ∧
    (activeRun activeInit es).isSome = true := by
  refine ⟨?_, activeRun_unchanged es a, activeRun_isSome es a, ?_⟩
  · unfold activeRun
    rw [List.foldl_append]
    rfl
  · exact activeRun_isSome es activeInit rfl

/-- C8 witness: a non-intersecting batch retains `"hero"`, and from the
default the id stays set after an intersecting `"skills"` entry. -/
theorem C8_active_section_witness :
    activeRun (some "hero") [⟨false, "about"⟩] = some "hero" ∧
    (activeRun activeInit [⟨true, "skills"⟩]).isSome = true :=
  ⟨(C8_active_section (some "hero") [⟨false, "about"⟩] ⟨true, "skills"⟩).2.1
      (by decide),
   (C8_active_section activeInit [⟨true, "skills"⟩] ⟨true, "skills"⟩).2.2.2⟩

/-! ## Claim theorems: theme controller -/

/-- C7: with no persisted value and system preference dark the initial
theme is dark; a toggle then makes it light and the persisted store reads
light; the toggle always flips between exactly the two values; and every
toggle persists the new theme. -/
theorem C7_theme :
    (appStartup none true).theme = .dark ∧
    (appToggle (appStartup none true)).theme = .light ∧
    (appToggle (appStartup none true)).stored = some .light ∧
    (∀ t, toggleTheme t ≠ t) ∧
    (∀ t, toggleTheme t = .light ∨ toggleTheme t = .dark) ∧
    (∀ s, (appToggle s).stored = some (appToggle s).theme) :=
  ⟨rfl, rfl, rfl, by decide, by decide, fun s => rfl⟩

/-! ## Claim theorems: typewriter -/

/-- Appending the indexed character extends the prefix by one. -/
theorem take_append_getD (l : List Char) (k : Nat) (h : k < l.length) :
    l.take k ++ [l.getD k ' '] = l.take (k + 1) := by
  rw [List.take_succ, List.getElem?_eq_getElem h, List.getD_eq_getElem l ' ' h]
  rfl

/-- Dropping the last character shortens the prefix by one. -/
theorem dropLast_take_eq (l : List Char) (m : Nat) (h : m ≤ l.length) :
    (l.take m).dropLast = l.take (m - 1) := by
  rw [List.dropLast_eq_take, List.length_take, List.take_take]
  congr 1
  omega

/-- Unfolding one callback. -/
theorem twIter_succ (name : List Char) (k : Nat) :
    twIter name (k + 1) = twStep name (twIter name k) := rfl

/-- Forward phase: after `k ≤ N` callbacks the emitted text is the length-`k`
prefix, still typing forward. -/
theorem twIter_forward (name : List Char) :
    ∀ k, k ≤ name.length → twIter name k = ⟨name.take k, k, true⟩ := by
  intro k
  induction k with
  | zero => intro _; rfl
  | succ k ih =>
      intro h
      have hk : k < name.length := Nat.lt_of_succ_le h
      rw [twIter_succ, ih (Nat.le_of_lt hk)]
      simp only [twStep, if_pos hk, if_pos]
      rw [take_append_getD name k hk]

/-- One step preserves the prefix invariant and the length bound. -/
theorem twStep_inv (name : List Char) (s : TwState)
    (h1 : s.idx ≤ name.length) (h2 : s.typed = name.take s.idx) :
    (twStep name s).idx ≤ name.length ∧
      (twStep name s).typed = name.take (twStep name s).idx := by
  unfold twStep
  split
  · split
    next hlt =>
      refine ⟨Nat.succ_le_of_lt hlt, ?_⟩
      show s.typed ++ [name.getD s.idx ' '] = name.take (s.idx + 1)
      rw [h2]
      exact take_append_getD name s.idx hlt
    next => exact ⟨h1, h2⟩
  · split
    next hpos =>
      refine ⟨Nat.le_trans (Nat.sub_le _ _) h1, ?_⟩
      show s.typed.dropLast = name.take (s.idx - 1)
      rw [h2]
      exact dropLast_take_eq name s.idx h1
    next => exact ⟨h1, h2⟩

/-- The emitted text is always the prefix of length `idx`, and `idx` never
exceeds the name's length. -/
theorem twIter_inv (name : List Char) :
    ∀ k, (twIter name k).idx ≤ name.length ∧
      (twIter name k).typed = name.take (twIter name k).idx := by
  intro k
  induction k with
  | zero => exact ⟨Nat.zero_le _, rfl⟩
  | succ k ih => exact twStep_inv name (twIter name k) ih.1 ih.2

/-- Backward phase: `j` deletion callbacks after the hold flip leave the
prefix of length `N - j`, deleting. -/
theorem twIter_backward (name : List Char) :
    ∀ j, j ≤ name.length →
      twIter name (name.length + 1 + j)
        = ⟨name.take (name.length - j), name.length - j, false⟩ := by
  intro j
  induction j with
  | zero =>
      intro _
      rw [show name.length + 1 + 0 = name.length + 1 from rfl, twIter_succ,
        twIter_forward name name.length le_rfl]
      simp [twStep]
  | succ j ih =>
      intro h
      have hj : j < name.length := Nat.lt_of_succ_le h
      have hpos : 0 < name.length - j := Nat.sub_pos_of_lt hj
      rw [show name.length + 1 + (j + 1) = (name.length + 1 + j) + 1 from rfl,
        twIter_succ, ih (Nat.le_of_lt hj)]
      simp only [twStep, hpos, if_pos]
      rw [dropLast_take_eq name (name.length - j) (Nat.sub_le _ _)]
      simp [Nat.sub_sub]

/-- After a full cycle of `2N + 2` callbacks the machine is back at the
initial state. -/
theorem twIter_period_zero (name : List Char) :
    twIter name (2 * name.length + 2) = twInit := by
  have h : 2 * name.length + 2 = (name.length + 1 + name.length) + 1 := by omega
  rw [h, twIter_succ, twIter_backward name name.length le_rfl]
  simp [twStep, Nat.sub_self, twInit]

/-- The trajectory is periodic with period `2N + 2`. -/
theorem twIter_periodic (name : List Char) :
    ∀ k, twIter name (k + (2 * name.length + 2)) = twIter name k := by
  intro k
  induction k with
  | zero =>
      rw [Nat.zero_add]
      exact twIter_period_zero name
  | succ k ih =>
      have h : k + 1 + (2 * name.length + 2) = (k + (2 * name.length + 2)) + 1 := by
        omega
      rw [h, twIter_succ, ih, ← twIter_succ]

/-- C6: the typewriter over a name of length `N` emits exactly the prefixes
`0, 1, …, N` one character per tick while typing forward, holds, deletes
back through `N-1, …, 0`, holds, and repeats with period `2N + 2`; the
emitted length never exceeds `N`; the tick delays are `tf` per forward
character, `tb` per deletion, and `p` at each of the two holds. -/
theorem C6_typewriter (name : List Char) (tf tb p : Nat) :
    (∀ k, (twIter name k).idx ≤ name.length ∧
      (twIter name k).typed = name.take (twIter name k).idx) ∧
    (∀ k, k ≤ name.length → twIter name k = ⟨name.take k, k, true⟩) ∧
    (∀ j, j ≤ name.length → twIter name (name.length + 1 + j)
      = ⟨name.take (name.length - j), name.length - j, false⟩) ∧
    (∀ k, twIter name (k + (2 * name.length + 2)) = twIter name k) ∧
    (∀ k, k < name.length → twDelay tf tb p name (twIter name k) = tf) ∧
    twDelay tf tb p name (twIter name name.length) = p ∧
    (∀ j, j < name.length →
      twDelay tf tb p name (twIter name (name.length + 1 + j)) = tb) ∧
    twDelay tf tb p name (twIter name (2 * name.length + 1)) = p := by
  refine ⟨twIter_inv name, twIter_forward name, twIter_backward name,
    twIter_periodic name, ?_, ?_, ?_, ?_⟩
  · intro k hk
    rw [twIter_forward name k (Nat.le_of_lt hk)]
    simp [twDelay, hk]
  · rw [twIter_forward name name.length le_rfl]
    simp [twDelay]
  · intro j hj
    rw [show name.length + 1 + j = name.length + 1 + j from rfl,
      twIter_backward name j (Nat.le_of_lt hj)]
    simp [twDelay, Nat.sub_pos_of_lt hj]
  · rw [show 2 * name.length + 1 = name.length + 1 + name.length by omega,
      twIter_backward name name.length le_rfl]
    simp [twDelay, Nat.sub_self]

/-- C6 witness, on the two-character name of the spec's example: the full
prefix is reached after two forward ticks, and the first deletion tick after
the hold runs at the backspace speed. -/
theorem C6_typewriter_witness :
    twIter ['H', 'i'] 2 = ⟨(['H', 'i'] : List Char).take 2, 2, true⟩ ∧
    twDelay 120 70 1500 ['H', 'i']
      (twIter ['H', 'i'] ((['H', 'i'] : List Char).length + 1 + 0)) = 70 :=
  ⟨(C6_typewriter ['H', 'i'] 120 70 1500).2.1 2 (by decide),
   (C6_typewriter ['H', 'i'] 120 70 1500).2.2.2.2.2.2.1 0 (by decide)⟩

end Portfolio
